import Mathlib

/-!
# agent-gateway: command builder, child environment, handlers and event frames

A shallow embedding of `src/agent-gateway/main.go`.

Conventions of the embedding.

* A Go `string` is a Lean `String`, that is, a string that is valid UTF-8. The
  only string operations the program itself uses are equality, concatenation
  and a hand-written prefix test; on these the byte-wise reading of Go and the
  character-wise reading of Lean agree. A Go string that is not valid UTF-8
  (a scanned output line can be one) is outside the embedding: `json.Marshal`
  would put U+FFFD in place of each of its invalid bytes.
* A Go `int` (64 bit on the gateway's targets) and a `time.Duration` (`int64`)
  are Lean `Int`s; where the program does arithmetic on them the result is
  wrapped into the signed 64-bit range by `wrapInt64`.
* A Go `map[string]string` that is only ranged over is the list of its
  key/value pairs in the order the `range` visits them (any order: the
  theorems quantify over the list), its keys pairwise distinct.
* The session registry `sessions.m` is a finite map given as a function
  `String → Option agentSession`; the mutex `busy` is a `Bool` (held or not).
* What the operating system does with a spawned command (pipes, start, the
  lines the two readers see, the wait status) is a parameter of
  `streamCommand`, the `RunOutcome`.
-/

namespace AgentGateway

/-! ## Types -/

/-- The JSON body of `POST /api/v1/message` (`MessageRequest`). -/
structure MessageRequest where
  Message : String
  Agent : String
  Model : String
  Env : List (String × String)
  Timeout : Int
deriving Repr, DecidableEq

/-- The JSON body of `POST /api/v1/exec` (`ExecRequest`). -/
structure ExecRequest where
  Command : String
  Args : List String
  Env : List (String × String)
  Timeout : Int
deriving Repr, DecidableEq

/-- Per-agent state (`agentSession`): the turn counter and the resumption token. -/
structure agentSession where
  messageCount : Int
  sessionID : String
deriving Repr, DecidableEq

/-- The zero value `&agentSession{}` that `getSession` stores for a new agent. -/
def agentSession.zero : agentSession := ⟨0, ""⟩

/-! ## Agent command builder -/

/-- The function `buildAgentCommand`: the `switch` on `req.Agent`, one branch per `case`. -/
def buildAgentCommand (req : MessageRequest) (sess : agentSession) : String × List String :=
  if req.Agent = "claude" ∨ req.Agent = "claude-code" then
    let args := ["--print", req.Message, "--verbose", "--output-format", "stream-json",
      "--include-partial-messages"]
    let args := if req.Model ≠ "" then args ++ ["--model", req.Model] else args
    let args := if sess.messageCount > 0 then args ++ ["--continue"] else args
    ("claude", args)
  else if req.Agent = "opencode" then
    let args := ["chat", "--message", req.Message]
    let args := if sess.sessionID ≠ "" then args ++ ["--session", sess.sessionID] else args
    ("opencode", args)
  else if req.Agent = "goose" then
    if sess.messageCount > 0 ∧ sess.sessionID ≠ "" then
      ("goose", ["session", "resume", sess.sessionID, "--message", req.Message])
    else
      ("goose", ["run", "--text", req.Message])
  else if req.Agent = "codex" then
    let args : List String := []
    let args := if req.Model ≠ "" then args ++ ["--model", req.Model] else args
    let args := args ++ [req.Message]
    ("codex", args)
  else if req.Agent = "cursor" ∨ req.Agent = "cursor-agent" then
    ("cursor-agent", ["--message", req.Message])
  else
    (req.Agent, [req.Message])

/-! ## SSE events and their JSON form -/

/-- A single SSE data payload (`SSEEvent`); `Code` is the Go pointer `*int`, `none` for `nil`. -/
structure SSEEvent where
  Type_ : String
  Data : String
  Code : Option Int
deriving Repr, DecidableEq

/-- A JSON value as far as `SSEEvent` needs it: a string or an integer. -/
inductive JSONValue where
  | str (s : String)
  | num (n : Int)
deriving Repr, DecidableEq

/-- The object `json.Marshal` produces for an `SSEEvent`, as its list of members in field
order, read off the struct tags: `type` always, `data,omitempty` left out when the string is
empty, `code,omitempty` left out when the pointer is nil. The members hold the decoded JSON
values; for the valid UTF-8 strings of the embedding the decoded `data` string is `Data`
itself (the escapes `json.Marshal` writes decode to the characters they stand for). -/
def marshalSSEEvent (evt : SSEEvent) : List (String × JSONValue) :=
  [("type", JSONValue.str evt.Type_)]
    ++ (if evt.Data ≠ "" then [("data", JSONValue.str evt.Data)] else [])
    ++ (match evt.Code with
        | some c => [("code", JSONValue.num c)]
        | none => [])

/-- The member of a marshalled object with the given name, if the object has one. -/
def jsonField (obj : List (String × JSONValue)) (name : String) : Option JSONValue :=
  (obj.find? (fun kv => kv.1 == name)).map (fun kv => kv.2)

/-- The events the gateway passes to `sseWrite`, one constructor per call site: the two
reader loops of `streamCommand`, its three error returns (all of the form
`SSEEvent{Type: "error", Data: msg}`), and the handlers' final `exit` event. -/
inductive GatewayEvent where
  | stdoutLine (line : String)
  | stderrLine (line : String)
  | error (msg : String)
  | exit (code : Int)
deriving Repr, DecidableEq

/-- The `SSEEvent` literal written at each call site. -/
def GatewayEvent.toSSE : GatewayEvent → SSEEvent
  | .stdoutLine line => { Type_ := "stdout", Data := line, Code := none }
  | .stderrLine line => { Type_ := "stderr", Data := line, Code := none }
  | .error msg => { Type_ := "error", Data := msg, Code := none }
  | .exit code => { Type_ := "exit", Data := "", Code := some code }

/-! ## The child's environment -/

/-- The test of the loop in `ensureEnv`: `len(e) > len(prefix) && e[:len(prefix)] == prefix`. -/
def envEntryMatches (pfx e : String) : Bool :=
  decide (e.length > pfx.length) && decide (e.data.take pfx.length = pfx.data)

/-- The function `ensureEnv`: the list itself when some entry passes the test, otherwise the
list with `key=fallback` appended. -/
def ensureEnv (env : List String) (key fallback : String) : List String :=
  let pfx := key ++ "="
  if env.any (envEntryMatches pfx) then env else env ++ [pfx ++ fallback]

/-- The entries `fmt.Sprintf("%s=%s", k, v)` that the `range env` loop of `streamCommand`
appends, in the order of the range. -/
def overlayEntries (env : List (String × String)) : List String :=
  env.map (fun kv => kv.1 ++ "=" ++ kv.2)

/-- The value of `cmd.Env` in `streamCommand`: `os.Environ()` (the parameter `environ`), then
the overlay entries, then the three `ensureEnv` calls. -/
def childEnv (environ : List String) (env : List (String × String)) : List String :=
  let cmdEnv := env.foldl (fun acc kv => acc ++ [kv.1 ++ "=" ++ kv.2]) environ
  let cmdEnv := ensureEnv cmdEnv "HOME" "/root"
  let cmdEnv := ensureEnv cmdEnv "PATH" "/usr/local/sbin:/usr/local/bin:/usr/sbin:/usr/bin:/sbin:/bin"
  let cmdEnv := ensureEnv cmdEnv "TERM" "dumb"
  cmdEnv

/-- An entry of the form `key=...`. -/
def isEntryFor (key e : String) : Bool :=
  (key ++ "=").data.isPrefixOf e.data

/-- The effective value of a variable in an environment list with duplicates: that of the
last entry `key=...`. This is not a function of `main.go`; it states the rule by which
`os/exec` removes duplicates from `cmd.Env` (the last entry for a key is the one kept). -/
def effectiveValue (env : List String) (key : String) : Option String :=
  (env.reverse.find? (isEntryFor key)).map (fun e => String.mk (e.data.drop (key.length + 1)))

/-- The three defaults of `streamCommand`, in the order of its `ensureEnv` calls. -/
def defaultEnv : List (String × String) :=
  [("HOME", "/root"),
   ("PATH", "/usr/local/sbin:/usr/local/bin:/usr/sbin:/usr/bin:/sbin:/bin"),
   ("TERM", "dumb")]

/-- The defaults for which no entry of `l` passes the test of `ensureEnv`. -/
def missingDefaults (l : List String) : List (String × String) :=
  defaultEnv.filter (fun kd => !(l.any (envEntryMatches (kd.1 ++ "="))))

/-- The value of the last pair with key `k` in a list of key/value pairs. -/
def lastValue (al : List (String × String)) (k : String) : Option String :=
  (al.reverse.find? (fun kv => kv.1 == k)).map Prod.snd

/-! ## Running the command -/

/-- Which of the child's two pipes a scanned line came from. -/
inductive Pipe where
  | stdout
  | stderr
deriving Repr, DecidableEq

/-- What `cmd.Wait()` returned: `nil`, an `*exec.ExitError` whose `ExitCode()` is `code`
(`-1` for a child killed by a signal, as at deadline expiry), or another error. -/
inductive WaitResult where
  | ok
  | exitError (code : Int)
  | otherError
deriving Repr, DecidableEq

/-- What the operating system did with the command. For a started child, `lines` is the
sequence of `scanner.Text()` values in the order in which the two readers' `sseWrite` calls
took effect, each tagged with its pipe. -/
inductive RunOutcome where
  | stdoutPipeErr (err : String)
  | stderrPipeErr (err : String)
  | startErr (err : String)
  | started (lines : List (Pipe × String)) (wait : WaitResult)
deriving Repr, DecidableEq

/-- A process started by `cmd.Start()`: the fields of the `exec.Cmd`. -/
structure Spawn where
  bin : String
  args : List String
  dir : String
  env : List String
deriving Repr, DecidableEq

/-- The directory `defaultWorkDir`. -/
def defaultWorkDir : String := "/workspace"

/-- The result of `streamCommand`: the events it wrote, the exit code it returned, and the
processes it started (none or one). -/
structure StreamResult where
  frames : List SSEEvent
  exitCode : Int
  spawns : List Spawn
deriving Repr, DecidableEq

/-- The event a reader loop writes for a scanned line. -/
def lineEvent : Pipe × String → SSEEvent
  | (Pipe.stdout, line) => { Type_ := "stdout", Data := line, Code := none }
  | (Pipe.stderr, line) => { Type_ := "stderr", Data := line, Code := none }

/-- The function `streamCommand`. -/
def streamCommand (environ : List String) (bin : String) (args : List String)
    (env : List (String × String)) (o : RunOutcome) : StreamResult :=
  let cmd : Spawn := { bin := bin, args := args, dir := defaultWorkDir, env := childEnv environ env }
  match o with
  | .stdoutPipeErr err =>
    { frames := [{ Type_ := "error", Data := "stdout pipe: " ++ err, Code := none }],
      exitCode := -1, spawns := [] }
  | .stderrPipeErr err =>
    { frames := [{ Type_ := "error", Data := "stderr pipe: " ++ err, Code := none }],
      exitCode := -1, spawns := [] }
  | .startErr err =>
    { frames := [{ Type_ := "error", Data := "start: " ++ err, Code := none }],
      exitCode := -1, spawns := [] }
  | .started lines wait =>
    let exitCode : Int :=
      match wait with
      | .ok => 0
      | .exitError code => code
      | .otherError => -1
    { frames := lines.map lineEvent, exitCode := exitCode, spawns := [cmd] }

/-- The lines scanned from one pipe, in the order they were scanned: the projection of the
readers' joint sequence onto that pipe. A joint sequence `lines` is an interleaving of the
stdout lines `outs` and the stderr lines `errs` exactly when `pipeLines Pipe.stdout lines`
is `outs` and `pipeLines Pipe.stderr lines` is `errs`. -/
def pipeLines (p : Pipe) (lines : List (Pipe × String)) : List String :=
  (lines.filter (fun pl => pl.1 == p)).map Prod.snd

/-! ## Deadline -/

/-- The value of a signed 64-bit integer after an arithmetic operation whose exact result is `x`. -/
def wrapInt64 (x : Int) : Int := (x + 2 ^ 63) % 2 ^ 64 - 2 ^ 63

/-- The duration `time.Second`, in nanoseconds. -/
def second : Int := 1000000000

/-- The constant `defaultTimeout = 300 * time.Second`. -/
def defaultTimeout : Int := 300 * second

/-- The deadline computation shared by both handlers:
`timeout := defaultTimeout; if req.Timeout > 0 { timeout = time.Duration(req.Timeout) * time.Second }`. -/
def requestTimeout (timeout : Int) : Int :=
  if timeout > 0 then wrapInt64 (timeout * second) else defaultTimeout

/-! ## State and handlers -/

/-- The global state: the mutex `busy` (true when held) and the map `sessions.m`. -/
structure State where
  busy : Bool
  sessions : String → Option agentSession

/-- The function `getSession`: the stored session, or a zero-valued one that is stored first. -/
def getSession (m : String → Option agentSession) (agent : String) :
    agentSession × (String → Option agentSession) :=
  match m agent with
  | some s => (s, m)
  | none => (agentSession.zero, fun a => if a = agent then some agentSession.zero else m a)

/-- An HTTP request as the handlers see it: the method and the outcome of decoding the body. -/
structure Request (α : Type) where
  Method : String
  Body : Except String α

/-- What a handler did: the status code, the text of an `http.Error` reply, the event frames
written, the command handed to `streamCommand` and the duration given to
`context.WithTimeout` (when the handler got that far), the processes started, and the state
afterwards. -/
structure HandlerResult where
  status : Nat
  errorBody : Option String
  frames : List SSEEvent
  command : Option (String × List String)
  timeout : Option Int
  spawns : List Spawn
  state : State

/-- The function `messageHandler`. -/
def messageHandler (st : State) (environ : List String) (r : Request MessageRequest)
    (o : RunOutcome) : HandlerResult :=
  if r.Method ≠ "POST" then
    { status := 405, errorBody := some "method not allowed", frames := [], command := none,
      timeout := none, spawns := [], state := st }
  else if st.busy then
    { status := 409, errorBody := some "\x7b\"error\":\"agent is busy with another request\"\x7d",
      frames := [], command := none, timeout := none, spawns := [], state := st }
  else
    match r.Body with
    | .error err =>
      { status := 400, errorBody := some ("\x7b\"error\":\"invalid json: " ++ err ++ "\"\x7d"),
        frames := [], command := none, timeout := none, spawns := [],
        state := { st with busy := false } }
    | .ok req =>
      let (sess, m) := getSession st.sessions req.Agent
      let (bin, args) := buildAgentCommand req sess
      let timeout := requestTimeout req.Timeout
      let res := streamCommand environ bin args req.Env o
      let exitEvt : SSEEvent := { Type_ := "exit", Data := "", Code := some res.exitCode }
      let sess' : agentSession := { sess with messageCount := wrapInt64 (sess.messageCount + 1) }
      { status := 200, errorBody := none, frames := res.frames ++ [exitEvt],
        command := some (bin, args), timeout := some timeout, spawns := res.spawns,
        state := { busy := false, sessions := fun a => if a = req.Agent then some sess' else m a } }

/-- The function `execHandler`. -/
def execHandler (st : State) (environ : List String) (r : Request ExecRequest)
    (o : RunOutcome) : HandlerResult :=
  if r.Method ≠ "POST" then
    { status := 405, errorBody := some "method not allowed", frames := [], command := none,
      timeout := none, spawns := [], state := st }
  else if st.busy then
    { status := 409, errorBody := some "\x7b\"error\":\"agent is busy with another request\"\x7d",
      frames := [], command := none, timeout := none, spawns := [], state := st }
  else
    match r.Body with
    | .error err =>
      { status := 400, errorBody := some ("\x7b\"error\":\"invalid json: " ++ err ++ "\"\x7d"),
        frames := [], command := none, timeout := none, spawns := [],
        state := { st with busy := false } }
    | .ok req =>
      let timeout := requestTimeout req.Timeout
      let res := streamCommand environ req.Command req.Args req.Env o
      let exitEvt : SSEEvent := { Type_ := "exit", Data := "", Code := some res.exitCode }
      { status := 200, errorBody := none, frames := res.frames ++ [exitEvt],
        command := some (req.Command, req.Args), timeout := some timeout, spawns := res.spawns,
        state := { st with busy := false } }

/-! ## The command builder: executable and arguments -/

/-- Claim C1. The executable returned by `buildAgentCommand` is fixed by the agent identifier
alone, whatever the message, model, turn counter and resumption token: `claude` for `claude`
and `claude-code`, `opencode` for `opencode`, `goose` for `goose`, `codex` for `codex`,
`cursor-agent` for `cursor` and `cursor-agent`; for every other identifier (the empty string
included) the executable is the identifier and the argument list is exactly `[message]`. -/
theorem buildAgentCommand_executable (req : MessageRequest) (sess : agentSession) :
    ((req.Agent = "claude" ∨ req.Agent = "claude-code") →
        (buildAgentCommand req sess).1 = "claude") ∧
    (req.Agent = "opencode" → (buildAgentCommand req sess).1 = "opencode") ∧
    (req.Agent = "goose" → (buildAgentCommand req sess).1 = "goose") ∧
    (req.Agent = "codex" → (buildAgentCommand req sess).1 = "codex") ∧
    ((req.Agent = "cursor" ∨ req.Agent = "cursor-agent") →
        (buildAgentCommand req sess).1 = "cursor-agent") ∧
    ((req.Agent ≠ "claude" ∧ req.Agent ≠ "claude-code" ∧ req.Agent ≠ "opencode" ∧
        req.Agent ≠ "goose" ∧ req.Agent ≠ "codex" ∧ req.Agent ≠ "cursor" ∧
        req.Agent ≠ "cursor-agent") →
        buildAgentCommand req sess = (req.Agent, [req.Message])) := by
  refine ⟨?_, ?_, ?_, ?_, ?_, ?_⟩
  · intro h
    simp [buildAgentCommand, h]
  · intro h
    simp [buildAgentCommand, h]
  · intro h
    simp only [buildAgentCommand, h]
    split_ifs <;> simp_all
  · intro h
    simp [buildAgentCommand, h]
  · intro h
    rcases h with h | h <;> simp [buildAgentCommand, h]
  · rintro ⟨h1, h2, h3, h4, h5, h6, h7⟩
    simp [buildAgentCommand, h1, h2, h3, h4, h5, h6, h7]

/-- The instance of `buildAgentCommand_executable` at the unknown identifier `my-agent` and at
the empty identifier, with a model, a positive counter and a token. -/
theorem buildAgentCommand_executable_witness :
    buildAgentCommand ⟨"hi", "my-agent", "m", [], 0⟩ ⟨3, "tok"⟩ = ("my-agent", ["hi"]) ∧
    buildAgentCommand ⟨"hi", "", "m", [], 0⟩ ⟨3, "tok"⟩ = ("", ["hi"]) :=
  ⟨(buildAgentCommand_executable ⟨"hi", "my-agent", "m", [], 0⟩ ⟨3, "tok"⟩).2.2.2.2.2
      (by decide),
   (buildAgentCommand_executable ⟨"hi", "", "m", [], 0⟩ ⟨3, "tok"⟩).2.2.2.2.2 (by decide)⟩

/-- Claim C2, refuted as stated. With turn counter 1 the arguments built for `codex`, for
`cursor` and for an unknown identifier are those of a zero-valued session (no continuation
argument), as are those for `goose` without a token; and with turn counter 0 and a token the
arguments for `opencode` carry `--session tok`. Hence "a continuation argument if and only if
the counter is positive" does not hold for every identifier and session. -/
theorem buildAgentCommand_continuation_counterexample :
    ((buildAgentCommand ⟨"hi", "codex", "", [], 0⟩ ⟨1, ""⟩).2
        = (buildAgentCommand ⟨"hi", "codex", "", [], 0⟩ agentSession.zero).2 ∧
      (buildAgentCommand ⟨"hi", "cursor", "", [], 0⟩ ⟨1, "tok"⟩).2
        = (buildAgentCommand ⟨"hi", "cursor", "", [], 0⟩ agentSession.zero).2 ∧
      (buildAgentCommand ⟨"hi", "my-agent", "", [], 0⟩ ⟨1, "tok"⟩).2
        = (buildAgentCommand ⟨"hi", "my-agent", "", [], 0⟩ agentSession.zero).2 ∧
      (buildAgentCommand ⟨"hi", "goose", "", [], 0⟩ ⟨1, ""⟩).2
        = (buildAgentCommand ⟨"hi", "goose", "", [], 0⟩ agentSession.zero).2 ∧
      (buildAgentCommand ⟨"hi", "opencode", "", [], 0⟩ ⟨0, "tok"⟩).2
        = ["chat", "--message", "hi", "--session", "tok"] ∧
      (buildAgentCommand ⟨"hi", "opencode", "", [], 0⟩ agentSession.zero).2
        = ["chat", "--message", "hi"]) ∧
    ¬ (∀ (req : MessageRequest) (sess : agentSession),
        (sess.messageCount = 0 →
          (buildAgentCommand req sess).2 = (buildAgentCommand req agentSession.zero).2) ∧
        (sess.messageCount > 0 →
          (buildAgentCommand req sess).2 ≠ (buildAgentCommand req agentSession.zero).2)) := by
  refine ⟨by decide, ?_⟩
  intro h
  exact (h ⟨"hi", "codex", "", [], 0⟩ ⟨1, ""⟩).2 (by decide) (by decide)

/-- Claim C2, amended. How the session enters the argument list depends on the identifier.
For `claude` and `claude-code` the arguments are those of a zero-valued session followed by
`--continue` exactly when the counter is positive (the token plays no part). For `opencode`
they are those of a zero-valued session followed by `--session <token>` exactly when the token
is non-empty (the counter plays no part). For `goose` they are
`session resume <token> --message <message>` exactly when the counter is positive and the
token is non-empty, and those of a zero-valued session otherwise. For every other identifier
(`codex`, `cursor`, `cursor-agent`, unknown ones) they are those of a zero-valued session,
whatever the counter and token. -/
theorem buildAgentCommand_continuation (req : MessageRequest) (sess : agentSession) :
    ((req.Agent = "claude" ∨ req.Agent = "claude-code") →
      (buildAgentCommand req sess).2 = (buildAgentCommand req agentSession.zero).2
        ++ (if sess.messageCount > 0 then ["--continue"] else [])) ∧
    (req.Agent = "opencode" →
      (buildAgentCommand req sess).2 = (buildAgentCommand req agentSession.zero).2
        ++ (if sess.sessionID ≠ "" then ["--session", sess.sessionID] else [])) ∧
    (req.Agent = "goose" →
      (buildAgentCommand req sess).2 =
        if sess.messageCount > 0 ∧ sess.sessionID ≠ "" then
          ["session", "resume", sess.sessionID, "--message", req.Message]
        else (buildAgentCommand req agentSession.zero).2) ∧
    ((req.Agent ≠ "claude" ∧ req.Agent ≠ "claude-code" ∧ req.Agent ≠ "opencode" ∧
        req.Agent ≠ "goose") →
      (buildAgentCommand req sess).2 = (buildAgentCommand req agentSession.zero).2) := by
  refine ⟨?_, ?_, ?_, ?_⟩
  · intro h
    simp only [buildAgentCommand, h, agentSession.zero]
    split_ifs <;> simp_all
  · intro h
    simp only [buildAgentCommand, h, agentSession.zero]
    split_ifs <;> simp_all
  · intro h
    simp only [buildAgentCommand, h, agentSession.zero]
    split_ifs <;> simp_all
  · rintro ⟨h1, h2, h3, h4⟩
    simp only [buildAgentCommand, h1, h2, h3, h4, agentSession.zero]
    split_ifs <;> simp_all

/-- The instances of `buildAgentCommand_continuation` at `claude` with counter 2 and at
`goose` with counter 2 and token `tok`. -/
theorem buildAgentCommand_continuation_witness :
    (buildAgentCommand ⟨"hi", "claude", "", [], 0⟩ ⟨2, ""⟩).2
      = ["--print", "hi", "--verbose", "--output-format", "stream-json",
          "--include-partial-messages", "--continue"] ∧
    (buildAgentCommand ⟨"hi", "goose", "", [], 0⟩ ⟨2, "tok"⟩).2
      = ["session", "resume", "tok", "--message", "hi"] :=
  ⟨((buildAgentCommand_continuation ⟨"hi", "claude", "", [], 0⟩ ⟨2, ""⟩).1
      (Or.inl rfl)).trans (by decide),
   ((buildAgentCommand_continuation ⟨"hi", "goose", "", [], 0⟩ ⟨2, "tok"⟩).2.2.1 rfl).trans
      (by decide)⟩

/-! ## The deadline -/

/-- Both handlers hand `requestTimeout` of the request's `Timeout` to `context.WithTimeout`
once they hold the slot and have decoded the body. -/
theorem messageHandler_timeout (st : State) (environ : List String) (req : MessageRequest)
    (o : RunOutcome) (hfree : st.busy = false) :
    (messageHandler st environ ⟨"POST", .ok req⟩ o).timeout
      = some (requestTimeout req.Timeout) := by
  simp [messageHandler, hfree]

/-- The counterpart of `messageHandler_timeout` for `execHandler`. -/
theorem execHandler_timeout (st : State) (environ : List String) (req : ExecRequest)
    (o : RunOutcome) (hfree : st.busy = false) :
    (execHandler st environ ⟨"POST", .ok req⟩ o).timeout
      = some (requestTimeout req.Timeout) := by
  simp [execHandler, hfree]

/-- Within the signed 64-bit range `wrapInt64` changes nothing. -/
theorem wrapInt64_of_inRange (x : Int) (hlo : -9223372036854775808 ≤ x)
    (hhi : x ≤ 9223372036854775807) :
    wrapInt64 x = x := by
  unfold wrapInt64
  norm_num
  omega

/-- The deadline for a timeout of `t` seconds, `0 < t ≤ 9223372036`, is `t * 10^9` ns. -/
theorem requestTimeout_seconds (t : Int) (hpos : 0 < t) (hle : t ≤ 9223372036) :
    requestTimeout t = t * 1000000000 := by
  unfold requestTimeout
  rw [if_pos hpos]
  unfold second
  apply wrapInt64_of_inRange <;> omega

/-- Claim C7, refuted as stated. The timeout 9223372037 (seconds) fits the 64-bit `Timeout`
field and is positive, yet the duration both handlers compute for it is the negative
`-9223372036709551616` ns: the product with `time.Second` leaves the `int64` range. -/
theorem requestTimeout_counterexample :
    (0 : Int) < 9223372037 ∧ (9223372037 : Int) ≤ 9223372036854775807 ∧
    (messageHandler ⟨false, fun _ => none⟩ [] ⟨"POST", .ok ⟨"hi", "x", "", [], 9223372037⟩⟩
        (.started [] .ok)).timeout = some (-9223372036709551616) ∧
    (execHandler ⟨false, fun _ => none⟩ [] ⟨"POST", .ok ⟨"true", [], [], 9223372037⟩⟩
        (.started [] .ok)).timeout = some (-9223372036709551616) ∧
    (-9223372036709551616 : Int) ≠ 9223372037 * 1000000000 := by
  refine ⟨by decide, by decide, ?_, ?_, by decide⟩
  · rw [messageHandler_timeout _ _ _ _ rfl]
    decide
  · rw [execHandler_timeout _ _ _ _ rfl]
    decide

/-- Claim C7, amended. For a request that holds the slot, the duration given to
`context.WithTimeout` by `messageHandler` and by `execHandler` is 300 s (300 000 000 000 ns)
when the `Timeout` field is 0, and for every positive `Timeout` it is `Timeout * 10^9` reduced
modulo 2^64 into the signed 64-bit range: a value `w` with `-2^63 ≤ w < 2^63` that differs
from `Timeout * 10^9` by a multiple of 2^64. For `0 < Timeout ≤ 9223372036` that value is
exactly `Timeout * 10^9` ns, a positive duration; for every larger `Timeout` the product has
wrapped and the value is not `Timeout * 10^9`. -/
theorem handler_timeout (st : State) (environ : List String) (mreq : MessageRequest)
    (ereq : ExecRequest) (o : RunOutcome) (t : Int) (hfree : st.busy = false)
    (hm : mreq.Timeout = t) (he : ereq.Timeout = t) (h0 : 0 ≤ t) :
    (messageHandler st environ ⟨"POST", .ok mreq⟩ o).timeout
      = some (if t = 0 then 300000000000
          else (t * 1000000000 + 9223372036854775808) % 18446744073709551616
            - 9223372036854775808) ∧
    (execHandler st environ ⟨"POST", .ok ereq⟩ o).timeout
      = some (if t = 0 then 300000000000
          else (t * 1000000000 + 9223372036854775808) % 18446744073709551616
            - 9223372036854775808) ∧
    (-9223372036854775808 ≤ (t * 1000000000 + 9223372036854775808) % 18446744073709551616
        - 9223372036854775808 ∧
      (t * 1000000000 + 9223372036854775808) % 18446744073709551616
        - 9223372036854775808 ≤ 9223372036854775807 ∧
      ((t * 1000000000 + 9223372036854775808) % 18446744073709551616
        - 9223372036854775808 - t * 1000000000) % 18446744073709551616 = 0) ∧
    (t ≤ 9223372036 →
      (messageHandler st environ ⟨"POST", .ok mreq⟩ o).timeout
        = some (if t = 0 then 300000000000 else t * 1000000000) ∧
      (execHandler st environ ⟨"POST", .ok ereq⟩ o).timeout
        = some (if t = 0 then 300000000000 else t * 1000000000) ∧
      (0 < t → 0 < t * 1000000000 ∧ t * 1000000000 ≤ 9223372036854775807)) ∧
    (9223372036 < t →
      (t * 1000000000 + 9223372036854775808) % 18446744073709551616
        - 9223372036854775808 ≠ t * 1000000000) := by
  have key : requestTimeout t = if t = 0 then 300000000000
      else (t * 1000000000 + 9223372036854775808) % 18446744073709551616
        - 9223372036854775808 := by
    by_cases ht : t = 0
    · subst ht
      decide
    · rw [if_neg ht]
      unfold requestTimeout
      rw [if_pos (by omega)]
      unfold wrapInt64 second
      norm_num
  have hsmall : t ≤ 9223372036 →
      (if t = 0 then (300000000000 : Int)
        else (t * 1000000000 + 9223372036854775808) % 18446744073709551616
          - 9223372036854775808)
      = if t = 0 then 300000000000 else t * 1000000000 := by
    intro hle
    by_cases ht : t = 0
    · rw [if_pos ht, if_pos ht]
    · rw [if_neg ht, if_neg ht]
      omega
  refine ⟨?_, ?_, ⟨?_, ?_, ?_⟩, ?_, ?_⟩
  · rw [messageHandler_timeout _ _ _ _ hfree, hm, key]
  · rw [execHandler_timeout _ _ _ _ hfree, he, key]
  · omega
  · omega
  · omega
  · intro hle
    refine ⟨?_, ?_, ?_⟩
    · rw [messageHandler_timeout _ _ _ _ hfree, hm, key, hsmall hle]
    · rw [execHandler_timeout _ _ _ _ hfree, he, key, hsmall hle]
    · intro hpos
      omega
  · intro hgt
    omega

/-- The instance of `handler_timeout` at a timeout of 1 second. -/
theorem handler_timeout_witness :
    (messageHandler ⟨false, fun _ => none⟩ [] ⟨"POST", .ok ⟨"hi", "x", "", [], 1⟩⟩
        (.started [] .ok)).timeout = some 1000000000 ∧
    (execHandler ⟨false, fun _ => none⟩ [] ⟨"POST", .ok ⟨"true", [], [], 1⟩⟩
        (.started [] .ok)).timeout = some 1000000000 :=
  have h := (handler_timeout ⟨false, fun _ => none⟩ [] ⟨"hi", "x", "", [], 1⟩
    ⟨"true", [], [], 1⟩ (.started [] .ok) 1 rfl rfl rfl (by decide)).2.2.2.1 (by decide)
  ⟨h.1, h.2.1⟩

/-! ## The execution slot -/

/-- Claim C5. A POST request that reaches `messageHandler` or `execHandler` while the slot is
held, whether its body decodes or not, is answered with status 409; no process is started, no
event frame is written, and the state afterwards is the state before: the slot is still held
and the session registry is the same map. -/
theorem busy_conflict (st : State) (environ : List String)
    (mbody : Except String MessageRequest) (ebody : Except String ExecRequest)
    (o : RunOutcome) (hbusy : st.busy = true) :
    ((messageHandler st environ ⟨"POST", mbody⟩ o).status = 409 ∧
      (messageHandler st environ ⟨"POST", mbody⟩ o).spawns = [] ∧
      (messageHandler st environ ⟨"POST", mbody⟩ o).frames = [] ∧
      (messageHandler st environ ⟨"POST", mbody⟩ o).state = st ∧
      (messageHandler st environ ⟨"POST", mbody⟩ o).state.busy = true ∧
      (messageHandler st environ ⟨"POST", mbody⟩ o).state.sessions = st.sessions) ∧
    ((execHandler st environ ⟨"POST", ebody⟩ o).status = 409 ∧
      (execHandler st environ ⟨"POST", ebody⟩ o).spawns = [] ∧
      (execHandler st environ ⟨"POST", ebody⟩ o).frames = [] ∧
      (execHandler st environ ⟨"POST", ebody⟩ o).state = st ∧
      (execHandler st environ ⟨"POST", ebody⟩ o).state.busy = true ∧
      (execHandler st environ ⟨"POST", ebody⟩ o).state.sessions = st.sessions) := by
  simp [messageHandler, execHandler, hbusy]

/-- The instance of `busy_conflict` at a held slot, a registry holding one session, a
well-formed turn request and an undecodable exec body. -/
theorem busy_conflict_witness :
    (messageHandler ⟨true, fun a => if a = "claude" then some ⟨4, ""⟩ else none⟩ []
        ⟨"POST", .ok ⟨"hi", "claude", "", [], 0⟩⟩ (.started [(Pipe.stdout, "x")] .ok)).status
      = 409 ∧
    (execHandler ⟨true, fun a => if a = "claude" then some ⟨4, ""⟩ else none⟩ []
        ⟨"POST", .error "unexpected EOF"⟩ (.started [(Pipe.stdout, "x")] .ok)).frames = [] :=
  have h := busy_conflict ⟨true, fun a => if a = "claude" then some ⟨4, ""⟩ else none⟩ []
    (.ok ⟨"hi", "claude", "", [], 0⟩) (.error "unexpected EOF")
    (.started [(Pipe.stdout, "x")] .ok) rfl
  ⟨h.1.1, h.2.2.2.1⟩

/-! ## The event stream of a run -/

/-- The frames of a turn that holds the slot: those of `streamCommand` and then the `exit`
frame carrying the code `streamCommand` returned. -/
theorem messageHandler_frames (st : State) (environ : List String) (req : MessageRequest)
    (o : RunOutcome) (hfree : st.busy = false) :
    (messageHandler st environ ⟨"POST", .ok req⟩ o).frames =
      (streamCommand environ (buildAgentCommand req (getSession st.sessions req.Agent).1).1
          (buildAgentCommand req (getSession st.sessions req.Agent).1).2 req.Env o).frames
        ++ [⟨"exit", "",
          some (streamCommand environ (buildAgentCommand req (getSession st.sessions req.Agent).1).1
            (buildAgentCommand req (getSession st.sessions req.Agent).1).2 req.Env o).exitCode⟩] := by
  simp [messageHandler, hfree]

/-- The counterpart of `messageHandler_frames` for `execHandler`. -/
theorem execHandler_frames (st : State) (environ : List String) (req : ExecRequest)
    (o : RunOutcome) (hfree : st.busy = false) :
    (execHandler st environ ⟨"POST", .ok req⟩ o).frames =
      (streamCommand environ req.Command req.Args req.Env o).frames
        ++ [⟨"exit", "", some (streamCommand environ req.Command req.Args req.Env o).exitCode⟩] := by
  simp [execHandler, hfree]

/-- The function `streamCommand` itself writes no `exit` frame. -/
theorem streamCommand_frames_ne_exit (environ : List String) (bin : String)
    (args : List String) (env : List (String × String)) (o : RunOutcome) :
    ∀ f ∈ (streamCommand environ bin args env o).frames, f.Type_ ≠ "exit" := by
  intro f hf
  cases o with
  | stdoutPipeErr err =>
    simp only [streamCommand, List.mem_singleton] at hf
    subst hf
    simp
  | stderrPipeErr err =>
    simp only [streamCommand, List.mem_singleton] at hf
    subst hf
    simp
  | startErr err =>
    simp only [streamCommand, List.mem_singleton] at hf
    subst hf
    simp
  | started lines wait =>
    simp only [streamCommand, List.mem_map] at hf
    obtain ⟨⟨p, line⟩, -, rfl⟩ := hf
    cases p <;> simp [lineEvent]

/-- The frames and exit code of `streamCommand` by outcome: one `error` frame and `-1` when a
pipe or the start fails; otherwise one frame per scanned line and the code of the wait status
(`0`, the child's code, or `-1`). -/
theorem streamCommand_outcome (environ : List String) (bin : String) (args : List String)
    (env : List (String × String)) (o : RunOutcome) :
    (∀ err, o = .stdoutPipeErr err →
      (streamCommand environ bin args env o).frames = [⟨"error", "stdout pipe: " ++ err, none⟩] ∧
      (streamCommand environ bin args env o).exitCode = -1) ∧
    (∀ err, o = .stderrPipeErr err →
      (streamCommand environ bin args env o).frames = [⟨"error", "stderr pipe: " ++ err, none⟩] ∧
      (streamCommand environ bin args env o).exitCode = -1) ∧
    (∀ err, o = .startErr err →
      (streamCommand environ bin args env o).frames = [⟨"error", "start: " ++ err, none⟩] ∧
      (streamCommand environ bin args env o).exitCode = -1) ∧
    (∀ lines wait, o = .started lines wait →
      (streamCommand environ bin args env o).frames = lines.map lineEvent ∧
      (streamCommand environ bin args env o).exitCode =
        match wait with
        | .ok => 0
        | .exitError code => code
        | .otherError => -1) := by
  refine ⟨?_, ?_, ?_, ?_⟩
  · rintro err rfl
    exact ⟨rfl, rfl⟩
  · rintro err rfl
    exact ⟨rfl, rfl⟩
  · rintro err rfl
    exact ⟨rfl, rfl⟩
  · rintro lines wait rfl
    exact ⟨rfl, rfl⟩

/-- A frame list made of frames that are not `exit` frames followed by one `exit` frame has
exactly one `exit` frame, and that frame is its last. -/
theorem exit_once_and_last (pre : List SSEEvent) (code : Int)
    (hpre : ∀ f ∈ pre, f.Type_ ≠ "exit") :
    ((pre ++ [(⟨"exit", "", some code⟩ : SSEEvent)]).filter
        (fun f => decide (f.Type_ = "exit"))).length = 1 ∧
    (pre ++ [(⟨"exit", "", some code⟩ : SSEEvent)]).getLast? = some ⟨"exit", "", some code⟩ := by
  constructor
  · have hnil : pre.filter (fun f => decide (f.Type_ = "exit")) = [] := by
      simpa [List.filter_eq_nil_iff] using hpre
    simp [List.filter_append, hnil]
  · simp

/-- Claim C6. For a well-formed request that acquires the slot in `messageHandler` or in
`execHandler`, and for every outcome of the run, the frames written are frames that are not
of type `exit` followed by one `exit` frame: there is exactly one `exit` frame and it is the
last. When a pipe or the start fails the frames are exactly one `error` frame and then the
`exit` frame with code -1; when the child ran they are the frames of the scanned lines and
then the `exit` frame with the code of the wait status (0 for a clean exit, the child's code,
-1 for a signal death such as the kill at deadline expiry). -/
theorem stream_ends_with_one_exit (st : State) (environ : List String) (mreq : MessageRequest)
    (ereq : ExecRequest) (o : RunOutcome) (hfree : st.busy = false) :
    ∀ frames : List SSEEvent,
      (frames = (messageHandler st environ ⟨"POST", .ok mreq⟩ o).frames ∨
        frames = (execHandler st environ ⟨"POST", .ok ereq⟩ o).frames) →
      (∃ pre code, frames = pre ++ [⟨"exit", "", some code⟩] ∧ ∀ f ∈ pre, f.Type_ ≠ "exit") ∧
      (frames.filter (fun f => decide (f.Type_ = "exit"))).length = 1 ∧
      (∃ code, frames.getLast? = some ⟨"exit", "", some code⟩) ∧
      (∀ err, o = .stdoutPipeErr err →
        frames = [⟨"error", "stdout pipe: " ++ err, none⟩, ⟨"exit", "", some (-1)⟩]) ∧
      (∀ err, o = .stderrPipeErr err →
        frames = [⟨"error", "stderr pipe: " ++ err, none⟩, ⟨"exit", "", some (-1)⟩]) ∧
      (∀ err, o = .startErr err →
        frames = [⟨"error", "start: " ++ err, none⟩, ⟨"exit", "", some (-1)⟩]) ∧
      (∀ lines wait, o = .started lines wait →
        frames = lines.map lineEvent ++
          [⟨"exit", "", some (match wait with
            | .ok => 0
            | .exitError code => code
            | .otherError => -1)⟩]) := by
  intro frames hframes
  obtain ⟨bin, args, env, hshape⟩ : ∃ bin args env, frames =
      (streamCommand environ bin args env o).frames
        ++ [⟨"exit", "", some (streamCommand environ bin args env o).exitCode⟩] := by
    rcases hframes with h | h
    · exact ⟨_, _, _, h.trans (messageHandler_frames st environ mreq o hfree)⟩
    · exact ⟨_, _, _, h.trans (execHandler_frames st environ ereq o hfree)⟩
  have hne := streamCommand_frames_ne_exit environ bin args env o
  have hout := streamCommand_outcome environ bin args env o
  have hcount := exit_once_and_last _ (streamCommand environ bin args env o).exitCode hne
  refine ⟨⟨_, _, hshape, hne⟩, ?_, ⟨(streamCommand environ bin args env o).exitCode, ?_⟩,
    ?_, ?_, ?_, ?_⟩
  · rw [hshape]
    exact hcount.1
  · rw [hshape]
    exact hcount.2
  · intro err ho
    rw [hshape, (hout.1 err ho).1, (hout.1 err ho).2]
    rfl
  · intro err ho
    rw [hshape, (hout.2.1 err ho).1, (hout.2.1 err ho).2]
    rfl
  · intro err ho
    rw [hshape, (hout.2.2.1 err ho).1, (hout.2.2.1 err ho).2]
    rfl
  · intro lines wait ho
    rw [hshape, (hout.2.2.2 lines wait ho).1, (hout.2.2.2 lines wait ho).2]

/-- The instance of `stream_ends_with_one_exit` at a turn whose start fails: the frames are
the `error` frame and the `exit` frame with code -1. -/
theorem stream_ends_with_one_exit_witness :
    (messageHandler ⟨false, fun _ => none⟩ [] ⟨"POST", .ok ⟨"hi", "nope", "", [], 0⟩⟩
        (.startErr "exec: \"nope\": executable file not found in $PATH")).frames =
      [⟨"error", "start: exec: \"nope\": executable file not found in $PATH", none⟩,
        ⟨"exit", "", some (-1)⟩] :=
  (stream_ends_with_one_exit ⟨false, fun _ => none⟩ [] ⟨"hi", "nope", "", [], 0⟩
      ⟨"true", [], [], 0⟩ (.startErr "exec: \"nope\": executable file not found in $PATH") rfl
      _ (Or.inl rfl)).2.2.2.2.2.1 _ rfl

/-! ## The two readers -/

/-- The frames of the scanned lines that have a given type are the frames of the lines of the
matching pipe, in the order they were scanned; none has type `exit`. -/
theorem filter_lineEvent (lines : List (Pipe × String)) :
    (lines.map lineEvent).filter (fun f => decide (f.Type_ = "stdout"))
      = (pipeLines Pipe.stdout lines).map (fun l => (⟨"stdout", l, none⟩ : SSEEvent)) ∧
    (lines.map lineEvent).filter (fun f => decide (f.Type_ = "stderr"))
      = (pipeLines Pipe.stderr lines).map (fun l => (⟨"stderr", l, none⟩ : SSEEvent)) ∧
    (lines.map lineEvent).filter (fun f => decide (f.Type_ = "exit")) = [] := by
  induction lines with
  | nil => simp [pipeLines]
  | cons pl lines ih =>
    obtain ⟨p, line⟩ := pl
    obtain ⟨ih1, ih2, ih3⟩ := ih
    unfold pipeLines at ih1 ih2 ⊢
    cases p
    · refine ⟨?_, ?_, ?_⟩
      · simp [lineEvent, List.filter_cons, ih1]
      · have hb : (Pipe.stdout == Pipe.stderr) = false := by decide
        simp [lineEvent, List.filter_cons, ih2, hb]
      · simp [lineEvent, List.filter_cons, ih3]
    · refine ⟨?_, ?_, ?_⟩
      · have hb : (Pipe.stderr == Pipe.stdout) = false := by decide
        simp [lineEvent, List.filter_cons, ih1, hb]
      · simp [lineEvent, List.filter_cons, ih2]
      · simp [lineEvent, List.filter_cons, ih3]

/-- The number of scanned lines is the number of stdout lines plus that of stderr lines. -/
theorem pipeLines_length (lines : List (Pipe × String)) :
    lines.length = (pipeLines Pipe.stdout lines).length + (pipeLines Pipe.stderr lines).length := by
  induction lines with
  | nil => rfl
  | cons pl lines ih =>
    obtain ⟨p, line⟩ := pl
    unfold pipeLines at ih ⊢
    cases p
    · have hb : (Pipe.stdout == Pipe.stderr) = false := by decide
      simp only [List.filter_cons, beq_self_eq_true, hb, if_true, List.map_cons,
        List.length_cons, List.length_map] at ih ⊢
      simp only [Bool.false_eq_true, if_false]
      omega
    · have hb : (Pipe.stderr == Pipe.stdout) = false := by decide
      simp only [List.filter_cons, beq_self_eq_true, hb, if_true, List.map_cons,
        List.length_cons, List.length_map] at ih ⊢
      simp only [Bool.false_eq_true, if_false]
      omega

/-- Claim C10. A child writes the `N` lines `outs` to standard output and the `M` lines
`errs` to standard error and exits with code 0, and `lines` is any interleaving of the two
readers (any sequence whose projection to stdout is `outs` and to stderr is `errs`). Then the
frames written by `messageHandler`, and by `execHandler`, holding the slot are the frames of
`lines` followed by one `exit` frame with code 0: the `stdout` frames are exactly `N`, their
data the lines of `outs` in order; the `stderr` frames are exactly `M`, their data the lines
of `errs` in order; there is exactly one `exit` frame, its code is 0, it is the last frame and
every frame before it is a `stdout` or `stderr` frame; there are `N + M + 1` frames in all. -/
theorem readers_then_exit (st : State) (environ : List String) (mreq : MessageRequest)
    (ereq : ExecRequest) (lines : List (Pipe × String)) (outs errs : List String)
    (hfree : st.busy = false) (hout : pipeLines Pipe.stdout lines = outs)
    (herr : pipeLines Pipe.stderr lines = errs) :
    ∀ frames : List SSEEvent,
      (frames = (messageHandler st environ ⟨"POST", .ok mreq⟩ (.started lines .ok)).frames ∨
        frames = (execHandler st environ ⟨"POST", .ok ereq⟩ (.started lines .ok)).frames) →
      frames.filter (fun f => decide (f.Type_ = "stdout"))
        = outs.map (fun l => (⟨"stdout", l, none⟩ : SSEEvent)) ∧
      (frames.filter (fun f => decide (f.Type_ = "stdout"))).map SSEEvent.Data = outs ∧
      (frames.filter (fun f => decide (f.Type_ = "stdout"))).length = outs.length ∧
      frames.filter (fun f => decide (f.Type_ = "stderr"))
        = errs.map (fun l => (⟨"stderr", l, none⟩ : SSEEvent)) ∧
      (frames.filter (fun f => decide (f.Type_ = "stderr"))).map SSEEvent.Data = errs ∧
      (frames.filter (fun f => decide (f.Type_ = "stderr"))).length = errs.length ∧
      frames.filter (fun f => decide (f.Type_ = "exit")) = [⟨"exit", "", some 0⟩] ∧
      frames = lines.map lineEvent ++ [⟨"exit", "", some 0⟩] ∧
      (∀ f ∈ lines.map lineEvent, f.Type_ = "stdout" ∨ f.Type_ = "stderr") ∧
      frames.getLast? = some ⟨"exit", "", some 0⟩ ∧
      frames.length = outs.length + errs.length + 1 := by
  intro frames hframes
  have hshape : frames = lines.map lineEvent ++ [⟨"exit", "", some 0⟩] := by
    rcases hframes with h | h
    · rw [h, messageHandler_frames st environ mreq _ hfree]
      rfl
    · rw [h, execHandler_frames st environ ereq _ hfree]
      rfl
  obtain ⟨f1, f2, f3⟩ := filter_lineEvent lines
  rw [hout] at f1
  rw [herr] at f2
  have g1 : frames.filter (fun f => decide (f.Type_ = "stdout"))
      = outs.map (fun l => (⟨"stdout", l, none⟩ : SSEEvent)) := by
    rw [hshape, List.filter_append, f1]
    simp
  have g2 : frames.filter (fun f => decide (f.Type_ = "stderr"))
      = errs.map (fun l => (⟨"stderr", l, none⟩ : SSEEvent)) := by
    rw [hshape, List.filter_append, f2]
    simp
  refine ⟨g1, ?_, ?_, g2, ?_, ?_, ?_, hshape, ?_, ?_, ?_⟩
  · rw [g1, List.map_map]
    simp [Function.comp_def]
  · rw [g1, List.length_map]
  · rw [g2, List.map_map]
    simp [Function.comp_def]
  · rw [g2, List.length_map]
  · rw [hshape, List.filter_append, f3]
    simp
  · intro f hf
    obtain ⟨⟨p, line⟩, -, rfl⟩ := List.mem_map.1 hf
    cases p
    · exact Or.inl rfl
    · exact Or.inr rfl
  · rw [hshape]
    simp
  · rw [hshape, List.length_append, List.length_map, pipeLines_length lines, hout, herr]
    rfl

/-- The instance of `readers_then_exit` at a child that writes `a`, `b` to standard output
and `e` to standard error, with the stderr line scanned between the two stdout lines. -/
theorem readers_then_exit_witness :
    (messageHandler ⟨false, fun _ => none⟩ [] ⟨"POST", .ok ⟨"hi", "x", "", [], 0⟩⟩
        (.started [(Pipe.stdout, "a"), (Pipe.stderr, "e"), (Pipe.stdout, "b")] .ok)).frames
      = [⟨"stdout", "a", none⟩, ⟨"stderr", "e", none⟩, ⟨"stdout", "b", none⟩,
          ⟨"exit", "", some 0⟩] :=
  (readers_then_exit ⟨false, fun _ => none⟩ [] ⟨"hi", "x", "", [], 0⟩ ⟨"true", [], [], 0⟩
      [(Pipe.stdout, "a"), (Pipe.stderr, "e"), (Pipe.stdout, "b")] ["a", "b"] ["e"]
      rfl (by decide) (by decide) _ (Or.inl rfl)).2.2.2.2.2.2.2.1

/-! ## The session registry across turns -/

/-- Claim C8. Two well-formed turn requests for an agent `X`, handled one after the other
with the slot free, from a registry without an entry for `X`. The first call's `getSession`
yields and stores a zero-valued session, the command is built from it, and afterwards the
registry's counter for `X` is 1 and the slot is free again; the second call's `getSession`
yields that stored session without changing the registry, the command is built from counter
1, and afterwards the counter is 2. The sessions of all other identifiers are what they were
before the two calls. -/
theorem two_turns (st : State) (environ : List String) (X : String)
    (req1 req2 : MessageRequest) (o1 o2 : RunOutcome)
    (hfree : st.busy = false) (hnew : st.sessions X = none)
    (h1 : req1.Agent = X) (h2 : req2.Agent = X) :
    (getSession st.sessions X).1 = agentSession.zero ∧
    (getSession st.sessions X).2 X = some agentSession.zero ∧
    (messageHandler st environ ⟨"POST", .ok req1⟩ o1).command
      = some (buildAgentCommand req1 agentSession.zero) ∧
    (messageHandler st environ ⟨"POST", .ok req1⟩ o1).state.sessions X = some ⟨1, ""⟩ ∧
    (messageHandler st environ ⟨"POST", .ok req1⟩ o1).state.busy = false ∧
    getSession (messageHandler st environ ⟨"POST", .ok req1⟩ o1).state.sessions X
      = (⟨1, ""⟩, (messageHandler st environ ⟨"POST", .ok req1⟩ o1).state.sessions) ∧
    (messageHandler (messageHandler st environ ⟨"POST", .ok req1⟩ o1).state environ
        ⟨"POST", .ok req2⟩ o2).command = some (buildAgentCommand req2 ⟨1, ""⟩) ∧
    (messageHandler (messageHandler st environ ⟨"POST", .ok req1⟩ o1).state environ
        ⟨"POST", .ok req2⟩ o2).state.sessions X = some ⟨2, ""⟩ ∧
    (∀ Y, Y ≠ X →
      (messageHandler st environ ⟨"POST", .ok req1⟩ o1).state.sessions Y = st.sessions Y ∧
      (messageHandler (messageHandler st environ ⟨"POST", .ok req1⟩ o1).state environ
        ⟨"POST", .ok req2⟩ o2).state.sessions Y = st.sessions Y) := by
  subst h1
  have w1 : wrapInt64 (0 + 1) = 1 := by decide
  have w2 : wrapInt64 2 = 2 := by decide
  have hs1 : (messageHandler st environ ⟨"POST", .ok req1⟩ o1).state
      = ⟨false, fun a => if a = req1.Agent then some ⟨1, ""⟩ else st.sessions a⟩ := by
    simp only [messageHandler, hfree, getSession, hnew, agentSession.zero, w1]
    simp
    funext a
    split_ifs <;> rfl
  refine ⟨?_, ?_, ?_, ?_, ?_, ?_, ?_, ?_, ?_⟩
  · simp [getSession, hnew]
  · simp [getSession, hnew]
  · simp [messageHandler, hfree, getSession, hnew]
  · rw [hs1]
    simp
  · rw [hs1]
  · rw [hs1]
    simp [getSession]
  · rw [hs1]
    simp [messageHandler, getSession, h2]
  · rw [hs1]
    simp [messageHandler, getSession, h2, w2]
  · intro Y hY
    rw [hs1]
    simp [messageHandler, getSession, h2, hY]

/-- The instance of `two_turns` at the agent `X`, an empty registry and two clean runs. -/
theorem two_turns_witness :
    (messageHandler ⟨false, fun _ => none⟩ [] ⟨"POST", .ok ⟨"one", "X", "", [], 0⟩⟩
        (.started [] .ok)).state.sessions "X" = some ⟨1, ""⟩ ∧
    (messageHandler (messageHandler ⟨false, fun _ => none⟩ [] ⟨"POST", .ok ⟨"one", "X", "", [], 0⟩⟩
        (.started [] .ok)).state [] ⟨"POST", .ok ⟨"two", "X", "", [], 0⟩⟩
        (.started [] .ok)).state.sessions "X" = some ⟨2, ""⟩ :=
  have h := two_turns ⟨false, fun _ => none⟩ [] "X" ⟨"one", "X", "", [], 0⟩
    ⟨"two", "X", "", [], 0⟩ (.started [] .ok) (.started [] .ok) rfl rfl rfl rfl
  ⟨h.2.2.2.1, h.2.2.2.2.2.2.2.1⟩

/-! ## The JSON form of an event -/

/-- Claim C9, refuted as stated. The event written for an empty output line has type
`stdout` (respectively `stderr`), which is not `exit`, and its JSON object is just
`type`: it has no `data` member. -/
theorem marshalSSEEvent_counterexample :
    marshalSSEEvent (GatewayEvent.stdoutLine "").toSSE = [("type", JSONValue.str "stdout")] ∧
    (GatewayEvent.stdoutLine "").toSSE.Type_ ≠ "exit" ∧
    jsonField (marshalSSEEvent (GatewayEvent.stdoutLine "").toSSE) "data" = none ∧
    jsonField (marshalSSEEvent (GatewayEvent.stderrLine "").toSSE) "data" = none := by
  decide

/-- Claim C9, amended. For every event the gateway writes whose line or message is valid
UTF-8 (a `stdout` or `stderr` event for such a line, an `error` event for such a message, an
`exit` event for any code), the JSON object has a `type` member, one of `stdout`, `stderr`,
`exit`, `error`; it has a `code` member if and only if the type is `exit`, and that member is
the exit code (0 included); it has a `data` member if and only if the type is not `exit` and
the line or message is not the empty string, and that member is the line or message. Lines
that are not valid UTF-8 are not covered: they are not values of the type `String`. -/
theorem marshalSSEEvent_schema (e : GatewayEvent) :
    jsonField (marshalSSEEvent e.toSSE) "type" = some (JSONValue.str e.toSSE.Type_) ∧
    (e.toSSE.Type_ = "stdout" ∨ e.toSSE.Type_ = "stderr" ∨ e.toSSE.Type_ = "exit" ∨
      e.toSSE.Type_ = "error") ∧
    (jsonField (marshalSSEEvent e.toSSE) "code" ≠ none ↔ e.toSSE.Type_ = "exit") ∧
    (∀ c, e = GatewayEvent.exit c →
      jsonField (marshalSSEEvent e.toSSE) "code" = some (JSONValue.num c)) ∧
    (∀ l, (e = GatewayEvent.stdoutLine l ∨ e = GatewayEvent.stderrLine l ∨
        e = GatewayEvent.error l) →
      e.toSSE.Type_ ≠ "exit" ∧
      (jsonField (marshalSSEEvent e.toSSE) "data" ≠ none ↔ l ≠ "") ∧
      (l ≠ "" → jsonField (marshalSSEEvent e.toSSE) "data" = some (JSONValue.str l))) ∧
    (e.toSSE.Type_ = "exit" → jsonField (marshalSSEEvent e.toSSE) "data" = none) := by
  cases e with
  | stdoutLine line =>
    by_cases hl : line = "" <;>
      simp [GatewayEvent.toSSE, marshalSSEEvent, jsonField, hl, List.find?]
  | stderrLine line =>
    by_cases hl : line = "" <;>
      simp [GatewayEvent.toSSE, marshalSSEEvent, jsonField, hl, List.find?]
  | error msg =>
    by_cases hl : msg = "" <;>
      simp [GatewayEvent.toSSE, marshalSSEEvent, jsonField, hl, List.find?]
  | exit code =>
    simp [GatewayEvent.toSSE, marshalSSEEvent, jsonField, List.find?]

/-- The instances of `marshalSSEEvent_schema` at the `exit` event with code 0 and at a
`stdout` event for the line `ok`. -/
theorem marshalSSEEvent_schema_witness :
    jsonField (marshalSSEEvent (GatewayEvent.exit 0).toSSE) "code" = some (JSONValue.num 0) ∧
    jsonField (marshalSSEEvent (GatewayEvent.stdoutLine "ok").toSSE) "data"
      = some (JSONValue.str "ok") :=
  ⟨(marshalSSEEvent_schema (GatewayEvent.exit 0)).2.2.2.1 0 rfl,
   ((marshalSSEEvent_schema (GatewayEvent.stdoutLine "ok")).2.2.2.2.1 "ok" (Or.inl rfl)).2.2
      (by decide)⟩

/-! ## The child's environment -/

/-- If `a=` is a prefix of `b=c` and neither `a` nor `b` contains `=`, then `a` is `b`. -/
theorem key_eq_of_prefix {a b c : List Char} (ha : '=' ∉ a) (hb : '=' ∉ b)
    (h : a ++ ['='] <+: b ++ '=' :: c) : a = b := by
  induction a generalizing b with
  | nil =>
    cases b with
    | nil => rfl
    | cons y b =>
      obtain ⟨t, ht⟩ := h
      simp at ht
      simp [← ht.1] at hb
  | cons x a ih =>
    cases b with
    | nil =>
      obtain ⟨t, ht⟩ := h
      simp at ht
      simp [ht.1] at ha
    | cons y b =>
      obtain ⟨t, ht⟩ := h
      simp only [List.cons_append, List.cons.injEq] at ht
      obtain ⟨hxy, ht⟩ := ht
      subst hxy
      have hab : a = b := ih (fun hmem => ha (List.mem_cons_of_mem _ hmem))
        (fun hmem => hb (List.mem_cons_of_mem _ hmem)) ⟨t, ht⟩
      rw [hab]

/-- The characters of an entry `k=v`. -/
theorem entry_data (k v : String) : (k ++ "=" ++ v).data = k.data ++ '=' :: v.data := by
  simp [String.data_append]

/-- The characters of a prefix `k=`. -/
theorem prefix_data (k : String) : (k ++ "=").data = k.data ++ ['='] := by
  simp [String.data_append]

/-- An entry `k'=v'` is an entry for `k` exactly when `k` is `k'` (keys without `=`). -/
theorem isEntryFor_entry (k k' v' : String) (hk : '=' ∉ k.data) (hk' : '=' ∉ k'.data) :
    isEntryFor k (k' ++ "=" ++ v') = true ↔ k = k' := by
  unfold isEntryFor
  rw [List.isPrefixOf_iff_prefix, entry_data, prefix_data]
  constructor
  · intro h
    have := key_eq_of_prefix hk hk' h
    exact String.ext this
  · rintro rfl
    exact ⟨v'.data, by simp⟩

/-- The value part of an entry `k=v` is `v`. -/
theorem entry_value (k v : String) :
    String.mk ((k ++ "=" ++ v).data.drop (k.length + 1)) = v := by
  rw [entry_data]
  have : k.length + 1 = (k.data ++ ['=']).length := by
    rw [List.length_append]
    rfl
  rw [this, show k.data ++ '=' :: v.data = (k.data ++ ['=']) ++ v.data by simp,
    List.drop_left]

/-- The test of `ensureEnv`, as a prefix and a length condition. -/
theorem envEntryMatches_iff (pfx e : String) :
    envEntryMatches pfx e = true ↔ pfx.data <+: e.data ∧ pfx.length < e.length := by
  unfold envEntryMatches
  simp only [Bool.and_eq_true, decide_eq_true_eq, gt_iff_lt]
  constructor
  · rintro ⟨hlen, htake⟩
    refine ⟨?_, hlen⟩
    rw [List.prefix_iff_eq_take]
    exact htake.symm
  · rintro ⟨hpre, hlen⟩
    refine ⟨hlen, ?_⟩
    rw [List.prefix_iff_eq_take] at hpre
    exact hpre.symm

/-- An entry that passes the test of `ensureEnv` for `key` is an entry for `key`. -/
theorem isEntryFor_of_matches (key e : String) (h : envEntryMatches (key ++ "=") e = true) :
    isEntryFor key e = true := by
  unfold isEntryFor
  rw [List.isPrefixOf_iff_prefix]
  exact ((envEntryMatches_iff _ _).1 h).1

/-- An entry `k=v` passes the test of `ensureEnv` for `k` exactly when `v` is not empty. -/
theorem envEntryMatches_entry (k v : String) :
    envEntryMatches (k ++ "=") (k ++ "=" ++ v) = true ↔ v ≠ "" := by
  rw [envEntryMatches_iff]
  constructor
  · rintro ⟨-, hlen⟩ rfl
    simp at hlen
  · intro hv
    refine ⟨⟨v.data, by simp [String.data_append]⟩, ?_⟩
    have : 0 < v.length := by
      rcases v with ⟨l⟩
      cases l with
      | nil => exact absurd rfl hv
      | cons c l => exact Nat.succ_pos _
    simp only [String.length_append]
    omega

/-- The `range env` loop of `streamCommand` appends the overlay entries to the base list. -/
theorem foldl_overlay (environ : List String) (env : List (String × String)) :
    env.foldl (fun acc kv => acc ++ [kv.1 ++ "=" ++ kv.2]) environ
      = environ ++ overlayEntries env := by
  induction env generalizing environ with
  | nil => simp [overlayEntries]
  | cons kv env ih =>
    rw [List.foldl_cons, ih]
    simp [overlayEntries]

/-- The list `cmd.Env`: the base entries, the overlay entries, and the defaults for which
neither had an entry passing the test of `ensureEnv`. -/
theorem childEnv_eq (environ : List String) (env : List (String × String)) :
    childEnv environ env = environ ++ overlayEntries env
      ++ overlayEntries (missingDefaults (environ ++ overlayEntries env)) := by
  unfold childEnv
  simp only [foldl_overlay]
  generalize environ ++ overlayEntries env = l
  have e1 : envEntryMatches "PATH=" "HOME=/root" = false := by decide
  have e2 : envEntryMatches "TERM=" "HOME=/root" = false := by decide
  have e3 : envEntryMatches "TERM="
      "PATH=/usr/local/sbin:/usr/local/bin:/usr/sbin:/usr/bin:/sbin:/bin" = false := by decide
  unfold missingDefaults defaultEnv ensureEnv
  cases h1 : l.any (envEntryMatches "HOME=") <;>
    cases h2 : l.any (envEntryMatches "PATH=") <;>
    cases h3 : l.any (envEntryMatches "TERM=") <;>
    simp [h1, h2, h3, e1, e2, e3, List.any_append, overlayEntries, List.filter]

/-- The effective value after one more entry: the new entry's value when it is an entry for
the key, the previous effective value otherwise. -/
theorem effectiveValue_concat (l : List String) (e k : String) :
    effectiveValue (l ++ [e]) k =
      if isEntryFor k e = true then some (String.mk (e.data.drop (k.length + 1)))
      else effectiveValue l k := by
  unfold effectiveValue
  rw [List.reverse_append, List.reverse_singleton, List.singleton_append, List.find?_cons]
  cases h : isEntryFor k e <;> simp

/-- The last value for a key after one more pair. -/
theorem lastValue_concat (al : List (String × String)) (k' v' k : String) :
    lastValue (al ++ [(k', v')]) k = if k' = k then some v' else lastValue al k := by
  unfold lastValue
  rw [List.reverse_append, List.reverse_singleton, List.singleton_append, List.find?_cons]
  by_cases h : k' = k
  · simp [h]
  · have hb : (k' == k) = false := by simpa using h
    simp [h, hb]

/-- The overlay entries of a list with one more pair. -/
theorem overlayEntries_concat (al : List (String × String)) (k' v' : String) :
    overlayEntries (al ++ [(k', v')]) = overlayEntries al ++ [k' ++ "=" ++ v'] := by
  simp [overlayEntries]

/-- In a base list followed by the entries of pairs whose keys have no `=`, a key that
occurs among the pairs resolves to the value of its last pair. -/
theorem effectiveValue_overlay (environ : List String) (al : List (String × String))
    (k v : String) (hk : '=' ∉ k.data) (hal : ∀ kv ∈ al, '=' ∉ kv.1.data)
    (hlast : lastValue al k = some v) :
    effectiveValue (environ ++ overlayEntries al) k = some v := by
  induction al using List.reverseRecOn with
  | nil => simp [lastValue] at hlast
  | append_singleton al kv ih =>
    obtain ⟨k', v'⟩ := kv
    have hk' : '=' ∉ k'.data := hal (k', v') (by simp)
    rw [overlayEntries_concat, ← List.append_assoc, effectiveValue_concat]
    rw [lastValue_concat] at hlast
    by_cases hkk : k' = k
    · subst hkk
      rw [if_pos rfl] at hlast
      rw [if_pos ((isEntryFor_entry k' k' v' hk hk').2 rfl), entry_value]
      exact hlast
    · rw [if_neg hkk] at hlast
      have hno : ¬ isEntryFor k (k' ++ "=" ++ v') = true := fun h =>
        hkk ((isEntryFor_entry k k' v' hk hk').1 h).symm
      rw [if_neg hno]
      exact ih (fun kv hkv => hal kv (List.mem_append_left _ hkv)) hlast

/-- With pairwise distinct keys, a pair of the list is the last pair for its key. -/
theorem lastValue_of_mem (al : List (String × String)) (k v : String)
    (hnodup : (al.map Prod.fst).Nodup) (hmem : (k, v) ∈ al) : lastValue al k = some v := by
  induction al using List.reverseRecOn with
  | nil => simp at hmem
  | append_singleton al kv ih =>
    obtain ⟨k', v'⟩ := kv
    rw [List.map_append, List.nodup_append] at hnodup
    obtain ⟨hnd, -, hdisj⟩ := hnodup
    rw [lastValue_concat]
    rcases List.mem_append.1 hmem with h | h
    · have hne : k' ≠ k := by
        rintro rfl
        exact hdisj (List.mem_map_of_mem Prod.fst h) (by simp)
      rw [if_neg hne]
      exact ih hnd h
    · simp only [List.mem_singleton, Prod.mk.injEq] at h
      rw [if_pos h.1.symm, h.2]

/-- The last value for a key in a concatenation whose second part has no pair for the key. -/
theorem lastValue_append_of_none (al bl : List (String × String)) (k : String)
    (h : lastValue bl k = none) : lastValue (al ++ bl) k = lastValue al k := by
  unfold lastValue at *
  rw [List.reverse_append, List.find?_append]
  simp only [Option.map_eq_none'] at h
  rw [h]
  simp

/-- The last value for a key in a concatenation whose second part has a pair for the key. -/
theorem lastValue_append_of_some (al bl : List (String × String)) (k v : String)
    (h : lastValue bl k = some v) : lastValue (al ++ bl) k = some v := by
  unfold lastValue at *
  rw [List.reverse_append, List.find?_append]
  cases hb : List.find? (fun kv => kv.1 == k) bl.reverse with
  | none => simp [hb] at h
  | some kv =>
    rw [hb] at h
    simpa using h

/-- A list without a pair for the key has no last value for it. -/
theorem lastValue_eq_none (bl : List (String × String)) (k : String)
    (h : ∀ kd ∈ bl, kd.1 ≠ k) : lastValue bl k = none := by
  unfold lastValue
  simp only [Option.map_eq_none', List.find?_eq_none, List.mem_reverse]
  intro kd hkd
  simpa using h kd hkd

/-- The keys of the defaults contain no `=`. -/
theorem defaultEnv_keys : ∀ kd ∈ defaultEnv, '=' ∉ kd.1.data := by
  decide

/-- The keys of the defaults are pairwise distinct. -/
theorem defaultEnv_nodup : (defaultEnv.map Prod.fst).Nodup := by
  decide

/-- The missing defaults are a sublist of the defaults. -/
theorem missingDefaults_sublist (l : List String) : (missingDefaults l).Sublist defaultEnv :=
  List.filter_sublist _

/-- Membership in the missing defaults. -/
theorem mem_missingDefaults (l : List String) (kd : String × String) :
    kd ∈ missingDefaults l ↔
      kd ∈ defaultEnv ∧ l.any (envEntryMatches (kd.1 ++ "=")) = false := by
  simp [missingDefaults, List.mem_filter]

/-- The environment list resolves a key to the last value it has among the overlay pairs
followed by the missing defaults. -/
theorem effectiveValue_childEnv (environ : List String) (env : List (String × String))
    (k x : String) (hk : '=' ∉ k.data) (hkeys : ∀ kv ∈ env, '=' ∉ kv.1.data)
    (hlast : lastValue (env ++ missingDefaults (environ ++ overlayEntries env)) k = some x) :
    effectiveValue (childEnv environ env) k = some x := by
  rw [childEnv_eq, List.append_assoc]
  have hmap : overlayEntries env ++ overlayEntries (missingDefaults (environ ++ overlayEntries env))
      = overlayEntries (env ++ missingDefaults (environ ++ overlayEntries env)) := by
    simp [overlayEntries]
  rw [hmap]
  apply effectiveValue_overlay _ _ _ _ hk _ hlast
  intro kv hkv
  rcases List.mem_append.1 hkv with h | h
  · exact hkeys kv h
  · exact defaultEnv_keys kv ((missingDefaults_sublist _).subset h)

/-- Claim C3, refuted as stated. With an empty base and the overlay `HOME=""` the child's
list is `HOME=`, `HOME=/root`, `PATH=...`, `TERM=dumb`: the test of `ensureEnv` does not count
the entry `HOME=`, the default is appended after it, and `HOME` resolves to `/root`, not to
the overlay's empty string. -/
theorem overlay_wins_counterexample :
    childEnv [] [("HOME", "")] =
      ["HOME=", "HOME=/root",
        "PATH=/usr/local/sbin:/usr/local/bin:/usr/sbin:/usr/bin:/sbin:/bin", "TERM=dumb"] ∧
    "HOME" ≠ "" ∧ '=' ∉ "HOME".data ∧
    effectiveValue (childEnv [] [("HOME", "")]) "HOME" = some "/root" ∧
    effectiveValue (childEnv [] [("HOME", "")]) "HOME" ≠ some "" := by
  decide

/-- Claim C3, amended. For every base list and every overlay with pairwise distinct keys that
contain no `=`, the list given to the child resolves an overlay key to the overlay's value
whenever the value is not the empty string, or the key is none of `HOME`, `PATH`, `TERM`, or
the base has an entry for the key with a non-empty value. -/
theorem overlay_wins (environ : List String) (env : List (String × String))
    (hnodup : (env.map Prod.fst).Nodup) (hkeys : ∀ kv ∈ env, '=' ∉ kv.1.data)
    (k v : String) (hmem : (k, v) ∈ env)
    (hcase : v ≠ "" ∨ (k ≠ "HOME" ∧ k ≠ "PATH" ∧ k ≠ "TERM") ∨
      environ.any (envEntryMatches (k ++ "=")) = true) :
    effectiveValue (childEnv environ env) k = some v := by
  apply effectiveValue_childEnv environ env k v (hkeys (k, v) hmem) hkeys
  rw [lastValue_append_of_none _ _ _ ?_]
  · exact lastValue_of_mem env k v hnodup hmem
  · apply lastValue_eq_none
    rintro ⟨k', d⟩ hkd rfl
    rw [mem_missingDefaults] at hkd
    obtain ⟨hdef, hany⟩ := hkd
    rcases hcase with hv | hk3 | hbase
    · have hin : k' ++ "=" ++ v ∈ environ ++ overlayEntries env :=
        List.mem_append_right _ (List.mem_map_of_mem (fun kv => kv.1 ++ "=" ++ kv.2) hmem)
      have htrue : (environ ++ overlayEntries env).any (envEntryMatches (k' ++ "=")) = true :=
        List.any_eq_true.2 ⟨_, hin, (envEntryMatches_entry k' v).2 hv⟩
      rw [htrue] at hany
      exact Bool.noConfusion hany
    · simp only [defaultEnv, List.mem_cons, Prod.mk.injEq, List.mem_singleton,
        List.not_mem_nil, or_false] at hdef
      rcases hdef with h | h | h
      · exact hk3.1 h.1
      · exact hk3.2.1 h.1
      · exact hk3.2.2 h.1
    · rw [List.any_append, hbase] at hany
      exact Bool.noConfusion hany

/-- The instance of `overlay_wins` at a base with `HOME=/home/u`, and the overlay
`HOME=/tmp`, `FOO=`: `HOME` resolves to `/tmp` and `FOO` to the empty string. -/
theorem overlay_wins_witness :
    effectiveValue (childEnv ["HOME=/home/u"] [("HOME", "/tmp"), ("FOO", "")]) "HOME"
      = some "/tmp" ∧
    effectiveValue (childEnv ["HOME=/home/u"] [("HOME", "/tmp"), ("FOO", "")]) "FOO"
      = some "" :=
  ⟨overlay_wins ["HOME=/home/u"] [("HOME", "/tmp"), ("FOO", "")] (by decide) (by decide)
      "HOME" "/tmp" (by decide) (Or.inl (by decide)),
   overlay_wins ["HOME=/home/u"] [("HOME", "/tmp"), ("FOO", "")] (by decide) (by decide)
      "FOO" "" (by decide) (Or.inr (Or.inl (by decide)))⟩

/-- The empty overlay value for a defaulted key: when the overlay gives `HOME`, `PATH` or
`TERM` the empty string and the base has no entry for the key with a non-empty value, the
default is appended after the overlay's entry and the key resolves to the default. -/
theorem overlay_empty_default (environ : List String) (env : List (String × String))
    (hnodup : (env.map Prod.fst).Nodup) (hkeys : ∀ kv ∈ env, '=' ∉ kv.1.data)
    (k d : String) (hmem : (k, "") ∈ env)
    (hbase : environ.any (envEntryMatches (k ++ "=")) = false) (hd : (k, d) ∈ defaultEnv) :
    effectiveValue (childEnv environ env) k = some d := by
  have hk : '=' ∉ k.data := hkeys (k, "") hmem
  apply effectiveValue_childEnv environ env k d hk hkeys
  apply lastValue_append_of_some
  apply lastValue_of_mem _ k d
    (List.Nodup.sublist ((missingDefaults_sublist _).map Prod.fst) defaultEnv_nodup)
  rw [mem_missingDefaults]
  refine ⟨hd, ?_⟩
  rw [List.any_append, hbase, Bool.false_or, List.any_eq_false]
  intro e he hmatch
  obtain ⟨⟨k', v'⟩, hkv, rfl⟩ := List.mem_map.1 he
  have hkk : k = k' :=
    (isEntryFor_entry k k' v' hk (hkeys (k', v') hkv)).1 (isEntryFor_of_matches k _ hmatch)
  subst hkk
  have hv : v' = "" := by
    have h1 := lastValue_of_mem env k v' hnodup hkv
    have h2 := lastValue_of_mem env k "" hnodup hmem
    rw [h1] at h2
    exact Option.some.inj h2
  exact (envEntryMatches_entry k v').1 hmatch hv

/-- Claim C4. For every base list and every overlay, the list given to the child is the base
entries, then the overlay entries, unchanged and in order, then some of the three defaults in
the order `HOME`, `PATH`, `TERM`. It has at least one entry `HOME=...`, one `PATH=...` and
one `TERM=...`; and for each of the three keys, when no entry of the base or of the overlay is
an entry for it, the list has exactly one entry for the key, `key=default`, with the defaults
`/root`, `/usr/local/sbin:/usr/local/bin:/usr/sbin:/usr/bin:/sbin:/bin` and `dumb`. -/
theorem childEnv_defaults (environ : List String) (env : List (String × String)) :
    (∃ extra, childEnv environ env = environ ++ overlayEntries env ++ extra ∧
      extra.Sublist ["HOME=/root",
        "PATH=/usr/local/sbin:/usr/local/bin:/usr/sbin:/usr/bin:/sbin:/bin", "TERM=dumb"]) ∧
    (∀ kd ∈ [("HOME", "/root"),
        ("PATH", "/usr/local/sbin:/usr/local/bin:/usr/sbin:/usr/bin:/sbin:/bin"),
        ("TERM", "dumb")],
      (∃ e ∈ childEnv environ env, isEntryFor kd.1 e = true) ∧
      ((∀ e ∈ environ ++ overlayEntries env, isEntryFor kd.1 e = false) →
        (childEnv environ env).filter (isEntryFor kd.1) = [kd.1 ++ "=" ++ kd.2])) := by
  constructor
  · refine ⟨_, childEnv_eq environ env, ?_⟩
    exact (missingDefaults_sublist _).map (fun kv => kv.1 ++ "=" ++ kv.2)
  · intro kd hkd
    have hkd' : kd ∈ defaultEnv := hkd
    obtain ⟨k, d⟩ := kd
    have hk : '=' ∉ k.data := defaultEnv_keys _ hkd'
    constructor
    · cases hany : (environ ++ overlayEntries env).any (envEntryMatches (k ++ "=")) with
      | true =>
        obtain ⟨e, he, hmatch⟩ := List.any_eq_true.1 hany
        refine ⟨e, ?_, isEntryFor_of_matches k e hmatch⟩
        rw [childEnv_eq]
        exact List.mem_append_left _ he
      | false =>
        refine ⟨k ++ "=" ++ d, ?_, (isEntryFor_entry k k d hk hk).2 rfl⟩
        rw [childEnv_eq]
        apply List.mem_append_right
        exact List.mem_map_of_mem (fun kv => kv.1 ++ "=" ++ kv.2)
          ((mem_missingDefaults _ _).2 ⟨hkd', hany⟩)
    · intro hnone
      have hany : (environ ++ overlayEntries env).any (envEntryMatches (k ++ "=")) = false := by
        rw [List.any_eq_false]
        intro e he hmatch
        have := hnone e he
        rw [isEntryFor_of_matches k e hmatch] at this
        exact Bool.noConfusion this
      have hl : (environ ++ overlayEntries env).filter (isEntryFor k) = [] := by
        rw [List.filter_eq_nil_iff]
        intro e he
        simp [hnone e he]
      have hin : (k, d) ∈ missingDefaults (environ ++ overlayEntries env) :=
        (mem_missingDefaults _ _).2 ⟨hkd', hany⟩
      have hfilter : ∀ D : List (String × String), D.Sublist defaultEnv → (k, d) ∈ D →
          (overlayEntries D).filter (isEntryFor k) = [k ++ "=" ++ d] := by
        intro D hsub hmemD
        have hD : D.filter (fun kv => kv.1 == k) = [(k, d)] := by
          have hnd : (D.map Prod.fst).Nodup :=
            List.Nodup.sublist (hsub.map Prod.fst) defaultEnv_nodup
          clear hsub
          induction D with
          | nil => simp at hmemD
          | cons kv D ih =>
            obtain ⟨k', d'⟩ := kv
            rw [List.map_cons, List.nodup_cons] at hnd
            rcases List.mem_cons.1 hmemD with h | h
            · simp only [Prod.mk.injEq] at h
              obtain ⟨rfl, rfl⟩ := h
              have hrest : D.filter (fun kv => kv.1 == k) = [] := by
                rw [List.filter_eq_nil_iff]
                intro kv hkv hk
                have hkeq : kv.1 = k := by simpa using hk
                have hm : kv.1 ∈ D.map Prod.fst := List.mem_map_of_mem Prod.fst hkv
                rw [hkeq] at hm
                exact hnd.1 hm
              simp [List.filter_cons, hrest]
            · have hne : k' ≠ k := by
                rintro rfl
                have hm : (k', d).1 ∈ D.map Prod.fst := List.mem_map_of_mem Prod.fst h
                exact hnd.1 hm
              have hb : (k' == k) = false := by simpa using hne
              simp only [List.filter_cons, hb]
              exact ih h hnd.2
        have hfun : ∀ kv ∈ D, isEntryFor k (kv.1 ++ "=" ++ kv.2) = (kv.1 == k) := by
          intro kv hkv
          have hk' : '=' ∉ kv.1.data := defaultEnv_keys kv (hsub.subset hkv)
          by_cases hkk : kv.1 = k
          · rw [(isEntryFor_entry k kv.1 kv.2 hk hk').2 hkk.symm]
            simp [hkk]
          · have hb : (kv.1 == k) = false := by simpa using hkk
            rw [hb]
            cases hE : isEntryFor k (kv.1 ++ "=" ++ kv.2) with
            | false => rfl
            | true => exact absurd ((isEntryFor_entry k kv.1 kv.2 hk hk').1 hE).symm hkk
        unfold overlayEntries
        rw [List.filter_map]
        have hcongr : D.filter (isEntryFor k ∘ fun kv => kv.1 ++ "=" ++ kv.2)
            = D.filter (fun kv => kv.1 == k) :=
          List.filter_congr (fun kv hkv => hfun kv hkv)
        rw [hcongr, hD]
        rfl
      rw [childEnv_eq, List.filter_append, hl, List.nil_append]
      exact hfilter _ (missingDefaults_sublist _) hin

end AgentGateway
